import Mathlib

/-!
Shallow embedding of `content/browser/renderer_host/input/gesture_event_queue.cc`
(class `GestureEventQueue`): the gesture input dispatch and
acknowledgment-ordering engine.

Modelling conventions:
* Machine state (`QueueState`) carries exactly the mutable members of the C++
  class that this component reads or writes: `scrolling_in_progress_`,
  `debounce_interval_` (a `base::TimeDelta`, modelled as `Int` microseconds —
  only its sign is ever inspected), the one-shot debounce timer's running bit,
  `debouncing_deferral_queue_`, `deferred_gesture_queue_`,
  `sent_events_awaiting_ack_` and `processing_acks_`.
* Calls into external collaborators (the dispatch-surface client, the timer,
  and the fling controller's observer registration) are recorded as an ordered
  `Effect` trace returned next to the new state; boolean answers obtained from
  the fling controller (`fling_in_progress()`, `FilterGestureEvent`) are passed
  in as oracle parameters, since the fling controller is an external
  collaborator whose internals are out of scope.
* `DCHECK` is a debug-only assertion in Chromium; in release builds it compiles
  to nothing, so the embedding of the release behavior simply continues past it.
* `ui::LatencyInfo` is opaque here: a list of annotations whose
  `AddNewLatencyFrom` merge is list append.
-/

namespace GestureQueue

/-- The `blink::WebInputEvent::Type` values distinguished by this component;
`otherGesture n` stands for the remaining discrete gesture kinds (taps,
long-press, ...) which the code treats uniformly in its `default` branches. -/
inductive WebInputEventType where
  | gestureScrollBegin
  | gestureScrollUpdate
  | gestureScrollEnd
  | gestureFlingStart
  | gestureFlingCancel
  | gesturePinchBegin
  | gesturePinchUpdate
  | gesturePinchEnd
  | gestureTapDown
  | gestureTap
  | otherGesture (n : Nat)
deriving DecidableEq, Repr

/-- `InputEventAckState`: the acknowledgment status attached to a forwarded
event; `unknown` is the initial value `INPUT_EVENT_ACK_STATE_UNKNOWN`. -/
inductive InputEventAckState where
  | unknown
  | consumed
  | notConsumed
  | consumedShouldBubble
  | noConsumerExists
  | ignored
deriving DecidableEq, Repr

/-- `InputEventAckSource`: which side produced an acknowledgment. -/
inductive InputEventAckSource where
  | unknownSource
  | browser
  | mainThreadRenderer
  | compositorThread
deriving DecidableEq, Repr

/-- `GestureEventWithLatencyInfo`: an immutable gesture event (its kind and an
identifying payload) together with its accumulated latency trace. -/
structure GestureEventWithLatencyInfo where
  eventType : WebInputEventType
  eventId : Nat
  latency : List Nat
deriving DecidableEq, Repr

/-- `GestureEventQueue::GestureEventWithLatencyInfoAndAckState`: an entry of
`sent_events_awaiting_ack_` — a forwarded event plus its mutable ack status
and ack source. -/
structure GestureEventWithLatencyInfoAndAckState where
  event : GestureEventWithLatencyInfo
  ackState : InputEventAckState
  ackSource : InputEventAckSource
deriving DecidableEq, Repr

/-- Construction of a fresh `sent_events_awaiting_ack_` entry at forward time:
status starts `INPUT_EVENT_ACK_STATE_UNKNOWN`. -/
def mkPendingAck (e : GestureEventWithLatencyInfo) :
    GestureEventWithLatencyInfoAndAckState :=
  ⟨e, .unknown, .unknownSource⟩

/-- A call made by the queue into one of its external collaborators, in
program order. -/
inductive Effect where
  | timerStart (delay : Int)
  | timerReset
  | sendGestureEventImmediately (e : GestureEventWithLatencyInfo)
  | onGestureEventAck (e : GestureEventWithLatencyInfo)
      (src : InputEventAckSource) (st : InputEventAckState)
  | registerFlingSchedulerObserver
  | unregisterFlingSchedulerObserver
  | processGestureFlingStart (e : GestureEventWithLatencyInfo)
  | processGestureFlingCancel (e : GestureEventWithLatencyInfo)
  | dlogUnexpectedAck (ty : WebInputEventType)
deriving DecidableEq, Repr

/-- The mutable members of `GestureEventQueue`. -/
structure QueueState where
  scrolling_in_progress : Bool
  debounce_interval : Int
  timer_running : Bool
  debouncing_deferral_queue : List GestureEventWithLatencyInfo
  deferred_gesture_queue : List GestureEventWithLatencyInfo
  sent_events_awaiting_ack : List GestureEventWithLatencyInfoAndAckState
  processing_acks : Bool
deriving DecidableEq, Repr

/-- The events carried by the `sendGestureEventImmediately` calls of a trace:
what the dispatch surface was asked to transmit, in order. -/
def sentEvents (effs : List Effect) : List GestureEventWithLatencyInfo :=
  effs.filterMap fun eff =>
    match eff with
    | .sendGestureEventImmediately e => some e
    | _ => none

/-- The `(eventId, eventType)` pairs of the `OnGestureEventAck` calls of a
trace: which events were reported back to the client, in order. -/
def reportedAcks (effs : List Effect) : List (Nat × WebInputEventType) :=
  effs.filterMap fun eff =>
    match eff with
    | .onGestureEventAck e _ _ => some (e.eventId, e.eventType)
    | _ => none

/-- Identity projection of a buffer entry: the fields never touched by
acknowledgment matching (latency merge changes only `latency`). -/
def ackProj (a : GestureEventWithLatencyInfoAndAckState) :
    Nat × WebInputEventType :=
  (a.event.eventId, a.event.eventType)

/-- Identity projection of a gesture event. -/
def gevProj (e : GestureEventWithLatencyInfo) : Nat × WebInputEventType :=
  (e.eventId, e.eventType)

/-- `GestureEventQueue::ForwardGestureEvent`: append a fresh Unknown entry to
`sent_events_awaiting_ack_`, register/unregister the fling scheduler observer
on scroll-begin/scroll-end, then call the client's
`SendGestureEventImmediately`. (The two leading `DCHECK_NE`s against
fling-start/fling-cancel compile to nothing in release builds.) -/
def ForwardGestureEvent (e : GestureEventWithLatencyInfo) (s : QueueState) :
    QueueState × List Effect :=
  let s1 := { s with sent_events_awaiting_ack :=
                s.sent_events_awaiting_ack ++ [mkPendingAck e] }
  let obsEffs : List Effect :=
    if e.eventType = .gestureScrollBegin then
      [.registerFlingSchedulerObserver]
    else if e.eventType = .gestureScrollEnd then
      [.unregisterFlingSchedulerObserver]
    else []
  (s1, obsEffs ++ [.sendGestureEventImmediately e])

/-- `GestureEventQueue::ShouldForwardForBounceReduction`: the debounce stage;
`fling_in_progress` is the oracle answer of
`fling_controller_.fling_in_progress()`. Returns (forward-now?, new state,
collaborator calls). -/
def ShouldForwardForBounceReduction (fling_in_progress : Bool)
    (e : GestureEventWithLatencyInfo) (s : QueueState) :
    Bool × QueueState × List Effect :=
  if s.debounce_interval ≤ 0 then (true, s, [])
  else if fling_in_progress then (true, s, [])
  else
    match e.eventType with
    | .gestureScrollUpdate =>
      let timerEffs : List Effect :=
        if !s.scrolling_in_progress then [.timerStart s.debounce_interval]
        else [.timerReset]
      (true,
       { s with timer_running := true,
                scrolling_in_progress := true,
                debouncing_deferral_queue := [] },
       timerEffs)
    | .gesturePinchBegin => (true, s, [])
    | .gesturePinchEnd => (true, s, [])
    | .gesturePinchUpdate => (true, s, [])
    | _ =>
      if s.scrolling_in_progress then
        (false,
         { s with debouncing_deferral_queue :=
                    s.debouncing_deferral_queue ++ [e] },
         [])
      else (true, s, [])

/-- `GestureEventQueue::DebounceOrForwardEvent`: debounce, then forward when
the debounce stage says so. (The two leading `DCHECK_NE`s against
fling-start/fling-cancel compile to nothing in release builds.) -/
def DebounceOrForwardEvent (fling_in_progress : Bool)
    (e : GestureEventWithLatencyInfo) (s : QueueState) :
    Bool × QueueState × List Effect :=
  let r := ShouldForwardForBounceReduction fling_in_progress e s
  if r.1 then
    let f := ForwardGestureEvent e r.2.1
    (true, f.1, r.2.2 ++ f.2)
  else (false, r.2.1, r.2.2)

/-- `GestureEventQueue::FlingControllerFilterEvent`: offer the event to the
fling controller (`filterConsumes` is the oracle answer of
`fling_controller_.FilterGestureEvent`); fling-start and fling-cancel events
are always consumed, being routed to the fling controller's handlers. -/
def FlingControllerFilterEvent (filterConsumes : Bool)
    (e : GestureEventWithLatencyInfo) (s : QueueState) :
    Bool × QueueState × List Effect :=
  if filterConsumes then (true, s, [])
  else if e.eventType = .gestureFlingStart then
    (true, s, [.processGestureFlingStart e])
  else if e.eventType = .gestureFlingCancel then
    (true, s, [.processGestureFlingCancel e])
  else (false, s, [])

/-- `GestureEventQueue::QueueDeferredEvents`: append to the side deferral
queue `deferred_gesture_queue_`. -/
def QueueDeferredEvents (e : GestureEventWithLatencyInfo) (s : QueueState) :
    QueueState :=
  { s with deferred_gesture_queue := s.deferred_gesture_queue ++ [e] }

/-- `GestureEventQueue::TakeDeferredEvents`: swap out and return the whole
side deferral queue. -/
def TakeDeferredEvents (s : QueueState) :
    List GestureEventWithLatencyInfo × QueueState :=
  (s.deferred_gesture_queue, { s with deferred_gesture_queue := [] })

/-- The `for (auto& outstanding_event : sent_events_awaiting_ack_)` loop of
`ProcessGestureAck`: entries whose status has left Unknown are skipped
(`continue`); at the first still-Unknown entry of the given kind the latency
is merged, status and source are set, and the scan stops (`break`). -/
def processAckUpdate (src : InputEventAckSource) (res : InputEventAckState)
    (ty : WebInputEventType) (lat : List Nat) :
    List GestureEventWithLatencyInfoAndAckState →
    List GestureEventWithLatencyInfoAndAckState
  | [] => []
  | a :: rest =>
    if a.ackState ≠ .unknown then a :: processAckUpdate src res ty lat rest
    else if a.event.eventType = ty then
      { a with event := { a.event with latency := a.event.latency ++ lat },
               ackState := res, ackSource := src } :: rest
    else a :: processAckUpdate src res ty lat rest

/-- The `while` loop of `AckCompletedEvents`: pop front entries whose status
has left Unknown; stop at the first Unknown front (or empty buffer). Returns
(remaining buffer, popped entries in pop order). -/
def ackCompletedLoop :
    List GestureEventWithLatencyInfoAndAckState →
    List GestureEventWithLatencyInfoAndAckState ×
      List GestureEventWithLatencyInfoAndAckState
  | [] => ([], [])
  | a :: rest =>
    if a.ackState = .unknown then (a :: rest, [])
    else
      let r := ackCompletedLoop rest
      (r.1, a :: r.2)

/-- `GestureEventQueue::AckCompletedEvents`: guarded against re-entrancy by
`processing_acks_`; drains completed front entries, reporting each through
`AckGestureEventToClient` (that is, `client_->OnGestureEventAck`). The
`base::AutoReset` restores `processing_acks_` to its entry value, so the state
returned carries the caller's `processing_acks` unchanged. -/
def AckCompletedEvents (s : QueueState) : QueueState × List Effect :=
  if s.processing_acks then (s, [])
  else
    let r := ackCompletedLoop s.sent_events_awaiting_ack
    ({ s with sent_events_awaiting_ack := r.1 },
     r.2.map fun a => .onGestureEventAck a.event a.ackSource a.ackState)

/-- `GestureEventQueue::ProcessGestureAck`: on an empty buffer, only a
`DLOG(ERROR)` diagnostic; otherwise match-and-update the first Unknown entry
of the given kind, then release completed front entries. -/
def ProcessGestureAck (src : InputEventAckSource) (res : InputEventAckState)
    (ty : WebInputEventType) (lat : List Nat) (s : QueueState) :
    QueueState × List Effect :=
  if s.sent_events_awaiting_ack.isEmpty then (s, [.dlogUnexpectedAck ty])
  else
    let s1 := { s with sent_events_awaiting_ack :=
                  processAckUpdate src res ty lat s.sent_events_awaiting_ack }
    AckCompletedEvents s1

/-- The `for` loop of `SendScrollEndingEventsNow` over the swapped-out
deferral queue: re-run the fling filter (oracle `filt`) on each event and
forward those not consumed. -/
def drainDeferred (filt : GestureEventWithLatencyInfo → Bool) :
    List GestureEventWithLatencyInfo → QueueState → QueueState × List Effect
  | [], s => (s, [])
  | e :: rest, s =>
    if filt e then drainDeferred filt rest s
    else
      let f := ForwardGestureEvent e s
      let r := drainDeferred filt rest f.1
      (r.1, f.2 ++ r.2)

/-- `GestureEventQueue::SendScrollEndingEventsNow`: the debounce timer's fire
callback — clear `scrolling_in_progress_`, swap out the deferral queue, and
drain it through the fling filter and `ForwardGestureEvent`. -/
def SendScrollEndingEventsNow (filt : GestureEventWithLatencyInfo → Bool)
    (s : QueueState) : QueueState × List Effect :=
  let s0 := { s with scrolling_in_progress := false }
  if s0.debouncing_deferral_queue.isEmpty then (s0, [])
  else
    drainDeferred filt s0.debouncing_deferral_queue
      { s0 with debouncing_deferral_queue := [] }

/-- Forward a whole sequence of events through `ForwardGestureEvent`,
collecting the trace. -/
def forwardAll : List GestureEventWithLatencyInfo → QueueState →
    QueueState × List Effect
  | [], s => (s, [])
  | e :: rest, s =>
    let f := ForwardGestureEvent e s
    let r := forwardAll rest f.1
    (r.1, f.2 ++ r.2)

/-- The argument bundle of one `ProcessGestureAck` call. -/
structure AckArgs where
  src : InputEventAckSource
  res : InputEventAckState
  ty : WebInputEventType
  lat : List Nat
deriving DecidableEq, Repr

/-- Process a sequence of acknowledgments through `ProcessGestureAck`,
collecting the trace. -/
def runAcks : List AckArgs → QueueState → QueueState × List Effect
  | [], s => (s, [])
  | a :: rest, s =>
    let p := ProcessGestureAck a.src a.res a.ty a.lat s
    let r := runAcks rest p.1
    (r.1, p.2 ++ r.2)

/-- Stash a whole sequence of events through `QueueDeferredEvents`. -/
def stashAll : List GestureEventWithLatencyInfo → QueueState → QueueState
  | [], s => s
  | e :: rest, s => stashAll rest (QueueDeferredEvents e s)

/-- What the re-entrant client does from inside one `OnGestureEventAck`
report: optionally (when scripted) trigger a nested acknowledgment cycle — a
genuine `ProcessGestureAck` call, which itself ends in `AckCompletedEvents`,
there guarded by `processing_acks_`. -/
def reentrantClientCall (oc : Option (Option AckArgs)) (s : QueueState) :
    QueueState :=
  match oc with
  | some (some c) => (ProcessGestureAck c.src c.res c.ty c.lat s).1
  | _ => s

/-- The `while` loop of `AckCompletedEvents` with a synchronously re-entrant
client: `calls` scripts, per `OnGestureEventAck` report, the optional nested
acknowledgment cycle the client triggers from inside the callback. The C++
loop terminates because each iteration erases one entry and the nested call
never grows the buffer; `fuel` is instantiated with the buffer length by
`AckCompletedEventsReentrant`. Returns (final state, identity projections of
the released entries in release order). -/
def ackCompletedLoopReentrant : Nat → List (Option AckArgs) → QueueState →
    QueueState × List (Nat × WebInputEventType)
  | 0, _, s => (s, [])
  | fuel + 1, calls, s =>
    match s.sent_events_awaiting_ack with
    | [] => (s, [])
    | a :: rest =>
      if a.ackState = .unknown then (s, [])
      else
        ((ackCompletedLoopReentrant fuel calls.tail
            (reentrantClientCall calls.head?
              { s with sent_events_awaiting_ack := rest })).1,
         ackProj a ::
           (ackCompletedLoopReentrant fuel calls.tail
             (reentrantClientCall calls.head?
               { s with sent_events_awaiting_ack := rest })).2)

/-- `GestureEventQueue::AckCompletedEvents` in the presence of a synchronously
re-entrant client, scripted by `calls`: the `processing_acks_` guard, the
`base::AutoReset` (restoring the entry value), and the erase-then-report
loop. -/
def AckCompletedEventsReentrant (calls : List (Option AckArgs))
    (s : QueueState) : QueueState × List (Nat × WebInputEventType) :=
  if s.processing_acks then (s, [])
  else
    let r := ackCompletedLoopReentrant s.sent_events_awaiting_ack.length calls
      { s with processing_acks := true }
    ({ r.1 with processing_acks := false }, r.2)

/-! Helper lemmas. -/

theorem sentEvents_append (l₁ l₂ : List Effect) :
    sentEvents (l₁ ++ l₂) = sentEvents l₁ ++ sentEvents l₂ :=
  List.filterMap_append l₁ l₂ _

theorem reportedAcks_append (l₁ l₂ : List Effect) :
    reportedAcks (l₁ ++ l₂) = reportedAcks l₁ ++ reportedAcks l₂ :=
  List.filterMap_append l₁ l₂ _

theorem ForwardGestureEvent_state (e : GestureEventWithLatencyInfo)
    (s : QueueState) :
    (ForwardGestureEvent e s).1 =
      { s with sent_events_awaiting_ack :=
          s.sent_events_awaiting_ack ++ [mkPendingAck e] } := rfl

theorem sentEvents_ForwardGestureEvent (e : GestureEventWithLatencyInfo)
    (s : QueueState) : sentEvents (ForwardGestureEvent e s).2 = [e] := by
  unfold ForwardGestureEvent sentEvents
  by_cases h1 : e.eventType = .gestureScrollBegin <;>
    by_cases h2 : e.eventType = .gestureScrollEnd <;>
      simp [h1, h2, List.filterMap]

theorem shouldForward_bypass (fling : Bool) (e : GestureEventWithLatencyInfo)
    (s : QueueState) (h : s.debounce_interval ≤ 0 ∨ fling = true) :
    ShouldForwardForBounceReduction fling e s = (true, s, []) := by
  unfold ShouldForwardForBounceReduction
  by_cases h0 : s.debounce_interval ≤ 0
  · simp [h0]
  · rcases h with h | h
    · exact absurd h h0
    · simp [h0, h]

/-! Claim theorems. -/

/-- C10: when the fling-in-progress bypass is taken (fling in progress,
non-zero debounce interval), `ShouldForwardForBounceReduction` answers true
and leaves the whole state unchanged, with no collaborator calls: the
scrolling flag keeps its value, the timer is neither started, reset nor
cancelled, and the debouncing deferral queue is not cleared. -/
theorem C10_fling_bypass_frame (e : GestureEventWithLatencyInfo)
    (s : QueueState) (_h : 0 < s.debounce_interval) :
    ShouldForwardForBounceReduction true e s = (true, s, []) :=
  shouldForward_bypass true e s (Or.inr rfl)

def sampleScrollUpdate : GestureEventWithLatencyInfo :=
  ⟨.gestureScrollUpdate, 1, []⟩

def sampleDeferredTap : GestureEventWithLatencyInfo :=
  ⟨.gestureTapDown, 2, [5]⟩

def sampleFlingState : QueueState :=
  ⟨true, 5, true, [sampleDeferredTap], [], [], false⟩

/-- Witness for C10: a scroll-update arriving during a fling, with a
previously deferred tap in the deferral queue, leaves the deferral queue (and
everything else) untouched. -/
theorem C10_fling_bypass_frame_witness :
    0 < sampleFlingState.debounce_interval ∧
    ShouldForwardForBounceReduction true sampleScrollUpdate sampleFlingState =
      (true, sampleFlingState, []) :=
  ⟨by decide,
   C10_fling_bypass_frame sampleScrollUpdate sampleFlingState (by decide)⟩

/-- C6: with a zero (disabled) quiet period, or with a fling in progress, any
event offered to `DebounceOrForwardEvent` is forwarded immediately — the call
returns true, behaves exactly as a direct `ForwardGestureEvent`, and the
dispatch surface's send is invoked with that event — regardless of the
scrolling-in-progress state. -/
theorem C6_bypass_forwards (fling : Bool) (e : GestureEventWithLatencyInfo)
    (s : QueueState) (h : s.debounce_interval ≤ 0 ∨ fling = true) :
    DebounceOrForwardEvent fling e s =
      (true, (ForwardGestureEvent e s).1, (ForwardGestureEvent e s).2) ∧
    sentEvents (DebounceOrForwardEvent fling e s).2.2 = [e] := by
  have hb := shouldForward_bypass fling e s h
  have h1 : DebounceOrForwardEvent fling e s =
      (true, (ForwardGestureEvent e s).1, (ForwardGestureEvent e s).2) := by
    unfold DebounceOrForwardEvent
    rw [hb]
    simp
  exact ⟨h1, by rw [h1]; exact sentEvents_ForwardGestureEvent e s⟩

def sampleIdleState : QueueState := ⟨false, 0, false, [], [], [], false⟩

/-- Witness for C6: a tap-down with a zero debounce interval is forwarded
immediately. -/
theorem C6_bypass_forwards_witness :
    (sampleIdleState.debounce_interval ≤ 0 ∨ false = true) ∧
    (DebounceOrForwardEvent false sampleDeferredTap sampleIdleState =
      (true, (ForwardGestureEvent sampleDeferredTap sampleIdleState).1,
       (ForwardGestureEvent sampleDeferredTap sampleIdleState).2) ∧
     sentEvents (DebounceOrForwardEvent false sampleDeferredTap
       sampleIdleState).2.2 = [sampleDeferredTap]) :=
  ⟨Or.inl (by decide),
   C6_bypass_forwards false sampleDeferredTap sampleIdleState
     (Or.inl (by decide))⟩

/-- C4: with a non-zero quiet period and no fling in progress, a scroll-update
makes `DebounceOrForwardEvent` start the one-shot timer (when the scrolling
flag was unset) or reset the running timer (when it was already set), set the
scrolling flag, clear the debouncing deferral queue — dropping any previously
buffered non-update events without forwarding them — and forward the
scroll-update itself immediately, returning true. -/
theorem C4_scroll_update_debounce (e : GestureEventWithLatencyInfo)
    (s : QueueState) (hi : 0 < s.debounce_interval)
    (he : e.eventType = .gestureScrollUpdate) :
    DebounceOrForwardEvent false e s =
      (true,
       { s with timer_running := true, scrolling_in_progress := true,
                debouncing_deferral_queue := [],
                sent_events_awaiting_ack :=
                  s.sent_events_awaiting_ack ++ [mkPendingAck e] },
       (if s.scrolling_in_progress then [Effect.timerReset]
        else [Effect.timerStart s.debounce_interval])
         ++ [Effect.sendGestureEventImmediately e]) := by
  have h0 : ¬ s.debounce_interval ≤ 0 := not_le.mpr hi
  have h1 : e.eventType ≠ .gestureScrollBegin := by rw [he]; intro hc; cases hc
  have h2 : e.eventType ≠ .gestureScrollEnd := by rw [he]; intro hc; cases hc
  unfold DebounceOrForwardEvent ShouldForwardForBounceReduction
    ForwardGestureEvent
  rw [he]
  by_cases hs : s.scrolling_in_progress <;> simp [h0, hs, h1, h2]

def sampleScrollingState : QueueState :=
  ⟨false, 100, false, [sampleDeferredTap], [], [], false⟩

/-- Witness for C4: a scroll-update in an idle (non-scrolling) state with a
100-unit quiet period starts the timer, sets the flag, clears the deferral
queue and is sent immediately. -/
theorem C4_scroll_update_debounce_witness :
    0 < sampleScrollingState.debounce_interval ∧
    sampleScrollUpdate.eventType = .gestureScrollUpdate ∧
    DebounceOrForwardEvent false sampleScrollUpdate sampleScrollingState =
      (true,
       { sampleScrollingState with
           timer_running := true,
           scrolling_in_progress := true,
           debouncing_deferral_queue := [],
           sent_events_awaiting_ack := [mkPendingAck sampleScrollUpdate] },
       (if sampleScrollingState.scrolling_in_progress then [Effect.timerReset]
        else [Effect.timerStart sampleScrollingState.debounce_interval])
         ++ [Effect.sendGestureEventImmediately sampleScrollUpdate]) :=
  ⟨by decide, rfl,
   C4_scroll_update_debounce sampleScrollUpdate sampleScrollingState
     (by decide) rfl⟩

theorem stashAll_deferred (es : List GestureEventWithLatencyInfo)
    (s : QueueState) :
    (stashAll es s).deferred_gesture_queue =
      s.deferred_gesture_queue ++ es := by
  induction es generalizing s with
  | nil => simp [stashAll]
  | cons e rest ih => simp [stashAll, QueueDeferredEvents, ih]

theorem stashAll_other (es : List GestureEventWithLatencyInfo)
    (s : QueueState) :
    (stashAll es s).scrolling_in_progress = s.scrolling_in_progress ∧
    (stashAll es s).debouncing_deferral_queue =
      s.debouncing_deferral_queue ∧
    (stashAll es s).sent_events_awaiting_ack =
      s.sent_events_awaiting_ack := by
  induction es generalizing s with
  | nil => exact ⟨rfl, rfl, rfl⟩
  | cons e rest ih => simpa [stashAll, QueueDeferredEvents] using ih _

theorem shouldForward_deferred (fling : Bool)
    (e : GestureEventWithLatencyInfo) (s : QueueState) :
    (ShouldForwardForBounceReduction fling e s).2.1.deferred_gesture_queue =
      s.deferred_gesture_queue := by
  unfold ShouldForwardForBounceReduction
  by_cases h0 : s.debounce_interval ≤ 0
  · simp [h0]
  · by_cases hf : fling <;>
      cases he : e.eventType <;>
        by_cases hs : s.scrolling_in_progress <;> simp [h0, hf, he, hs]

theorem debounceOrForward_deferred (fling : Bool)
    (e : GestureEventWithLatencyInfo) (s : QueueState) :
    (DebounceOrForwardEvent fling e s).2.1.deferred_gesture_queue =
      s.deferred_gesture_queue := by
  unfold DebounceOrForwardEvent
  by_cases h : (ShouldForwardForBounceReduction fling e s).1 <;>
    simp [h, ForwardGestureEvent_state, shouldForward_deferred]

theorem ackCompletedEvents_deferred (s : QueueState) :
    (AckCompletedEvents s).1.deferred_gesture_queue =
      s.deferred_gesture_queue := by
  unfold AckCompletedEvents
  by_cases h : s.processing_acks <;> simp [h]

theorem processGestureAck_deferred (src : InputEventAckSource)
    (res : InputEventAckState) (ty : WebInputEventType) (lat : List Nat)
    (s : QueueState) :
    (ProcessGestureAck src res ty lat s).1.deferred_gesture_queue =
      s.deferred_gesture_queue := by
  unfold ProcessGestureAck
  by_cases h : s.sent_events_awaiting_ack.isEmpty <;>
    simp [h, ackCompletedEvents_deferred]

theorem drainDeferred_deferred (filt : GestureEventWithLatencyInfo → Bool)
    (l : List GestureEventWithLatencyInfo) (s : QueueState) :
    (drainDeferred filt l s).1.deferred_gesture_queue =
      s.deferred_gesture_queue := by
  induction l generalizing s with
  | nil => rfl
  | cons e rest ih =>
    unfold drainDeferred
    by_cases h : filt e <;> simp [h, ih, ForwardGestureEvent_state]

theorem sendScrollEnding_deferred (filt : GestureEventWithLatencyInfo → Bool)
    (s : QueueState) :
    (SendScrollEndingEventsNow filt s).1.deferred_gesture_queue =
      s.deferred_gesture_queue := by
  unfold SendScrollEndingEventsNow
  by_cases h : s.debouncing_deferral_queue.isEmpty <;>
    simp [h, drainDeferred_deferred]

/-- C9: stashing e1..en through `QueueDeferredEvents` since the last
extraction and then calling `TakeDeferredEvents` returns exactly e1..en in
stash order and empties the side queue, so an immediately following
`TakeDeferredEvents` returns the empty sequence; and the debounce and ack
logic (`DebounceOrForwardEvent`, `ProcessGestureAck`,
`SendScrollEndingEventsNow`) never touches the side deferral queue. -/
theorem C9_side_queue (s : QueueState)
    (es : List GestureEventWithLatencyInfo)
    (e : GestureEventWithLatencyInfo) (a : AckArgs) (fling : Bool)
    (filt : GestureEventWithLatencyInfo → Bool)
    (h : s.deferred_gesture_queue = []) :
    (TakeDeferredEvents (stashAll es s)).1 = es ∧
    (TakeDeferredEvents (stashAll es s)).2.deferred_gesture_queue = [] ∧
    (TakeDeferredEvents (TakeDeferredEvents (stashAll es s)).2).1 = [] ∧
    (DebounceOrForwardEvent fling e s).2.1.deferred_gesture_queue =
      s.deferred_gesture_queue ∧
    (ProcessGestureAck a.src a.res a.ty a.lat s).1.deferred_gesture_queue =
      s.deferred_gesture_queue ∧
    (SendScrollEndingEventsNow filt s).1.deferred_gesture_queue =
      s.deferred_gesture_queue := by
  refine ⟨?_, rfl, rfl, debounceOrForward_deferred fling e s,
    processGestureAck_deferred a.src a.res a.ty a.lat s,
    sendScrollEnding_deferred filt s⟩
  show (stashAll es s).deferred_gesture_queue = es
  rw [stashAll_deferred, h, List.nil_append]

def sampleAckArgs : AckArgs := ⟨.browser, .consumed, .gestureTapDown, [3]⟩

/-- Witness for C9 at a concrete two-event stash. -/
theorem C9_side_queue_witness :
    sampleIdleState.deferred_gesture_queue = [] ∧
    ((TakeDeferredEvents (stashAll [sampleDeferredTap, sampleScrollUpdate]
        sampleIdleState)).1 = [sampleDeferredTap, sampleScrollUpdate] ∧
     (TakeDeferredEvents (stashAll [sampleDeferredTap, sampleScrollUpdate]
        sampleIdleState)).2.deferred_gesture_queue = [] ∧
     (TakeDeferredEvents (TakeDeferredEvents (stashAll
        [sampleDeferredTap, sampleScrollUpdate]
        sampleIdleState)).2).1 = [] ∧
     (DebounceOrForwardEvent false sampleDeferredTap
        sampleIdleState).2.1.deferred_gesture_queue =
       sampleIdleState.deferred_gesture_queue ∧
     (ProcessGestureAck sampleAckArgs.src sampleAckArgs.res sampleAckArgs.ty
        sampleAckArgs.lat sampleIdleState).1.deferred_gesture_queue =
       sampleIdleState.deferred_gesture_queue ∧
     (SendScrollEndingEventsNow (fun _ => false)
        sampleIdleState).1.deferred_gesture_queue =
       sampleIdleState.deferred_gesture_queue) :=
  ⟨rfl, C9_side_queue sampleIdleState [sampleDeferredTap, sampleScrollUpdate]
    sampleDeferredTap sampleAckArgs false (fun _ => false) rfl⟩

def gfsEvent : GestureEventWithLatencyInfo := ⟨.gestureFlingStart, 7, []⟩

def gfcEvent : GestureEventWithLatencyInfo := ⟨.gestureFlingCancel, 8, [1]⟩

/-- C2 counterexample: in release behavior (`DCHECK` compiled out) a
fling-start event passed directly to `DebounceOrForwardEvent` is NOT dropped:
with a zero debounce interval it is forwarded — the dispatch surface's
`SendGestureEventImmediately` is called with it and it becomes an entry of
`sent_events_awaiting_ack_`. -/
theorem C2_counterexample :
    (DebounceOrForwardEvent false gfsEvent sampleIdleState).1 = true ∧
    sentEvents (DebounceOrForwardEvent false gfsEvent
      sampleIdleState).2.2 = [gfsEvent] ∧
    (DebounceOrForwardEvent false gfsEvent
      sampleIdleState).2.1.sent_events_awaiting_ack =
      [mkPendingAck gfsEvent] := by decide

/-- C2 (amended): the no-send guarantee for fling-start/fling-cancel holds at
the `FlingControllerFilterEvent` boundary, not inside
`DebounceOrForwardEvent`: the filter always consumes such an event (returns
true, routing it to the fling controller), leaving the state unchanged and
sending nothing, so under the documented contract — events reach
`DebounceOrForwardEvent` only when the filter did not consume them — no such
event is ever sent or enqueued; inside `DebounceOrForwardEvent` itself the
contract is a debug-only assertion and a release build forwards rather than
drops. -/
theorem C2_amended_filter_boundary (consumes : Bool)
    (e : GestureEventWithLatencyInfo) (s : QueueState)
    (h : e.eventType = .gestureFlingStart ∨
         e.eventType = .gestureFlingCancel) :
    (FlingControllerFilterEvent consumes e s).1 = true ∧
    (FlingControllerFilterEvent consumes e s).2.1 = s ∧
    sentEvents (FlingControllerFilterEvent consumes e s).2.2 = [] := by
  unfold FlingControllerFilterEvent
  rcases h with h | h <;> by_cases hc : consumes <;> simp [h, hc, sentEvents]

/-- Witness for the amended C2 at a concrete fling-cancel event. -/
theorem C2_amended_filter_boundary_witness :
    (gfcEvent.eventType = .gestureFlingStart ∨
     gfcEvent.eventType = .gestureFlingCancel) ∧
    ((FlingControllerFilterEvent false gfcEvent sampleFlingState).1 = true ∧
     (FlingControllerFilterEvent false gfcEvent sampleFlingState).2.1 =
       sampleFlingState ∧
     sentEvents (FlingControllerFilterEvent false gfcEvent
       sampleFlingState).2.2 = []) :=
  ⟨Or.inr rfl,
   C2_amended_filter_boundary false gfcEvent sampleFlingState (Or.inr rfl)⟩

theorem drainDeferred_frame (filt : GestureEventWithLatencyInfo → Bool)
    (l : List GestureEventWithLatencyInfo) (s : QueueState) :
    (drainDeferred filt l s).1.scrolling_in_progress =
      s.scrolling_in_progress ∧
    (drainDeferred filt l s).1.debouncing_deferral_queue =
      s.debouncing_deferral_queue := by
  induction l generalizing s with
  | nil => exact ⟨rfl, rfl⟩
  | cons e rest ih =>
    unfold drainDeferred
    by_cases h : filt e
    · simpa [h] using ih s
    · simpa [h, ForwardGestureEvent_state] using
        ih (ForwardGestureEvent e s).1

theorem sentEvents_drainDeferred (filt : GestureEventWithLatencyInfo → Bool)
    (l : List GestureEventWithLatencyInfo) (s : QueueState) :
    sentEvents (drainDeferred filt l s).2 =
      l.filter (fun x => !(filt x)) := by
  induction l generalizing s with
  | nil => rfl
  | cons e rest ih =>
    unfold drainDeferred
    by_cases h : filt e
    · simp [h, ih, List.filter_cons]
    · simp [h, sentEvents_append, sentEvents_ForwardGestureEvent, ih,
        List.filter_cons]

/-- C5: with a non-zero quiet period, no fling, and the scrolling flag set, an
event that is neither a scroll-update nor a pinch kind is appended to the
debouncing deferral queue and reported as not forwarded; and when the
quiet-period timer fires (`SendScrollEndingEventsNow`) the flag is cleared,
the deferral queue is emptied, and the deferred events are drained in order —
each re-offered to the fling filter and, exactly when not consumed, forwarded
exactly once. -/
theorem C5_defer_and_timer_fire (s u : QueueState)
    (e : GestureEventWithLatencyInfo)
    (filt : GestureEventWithLatencyInfo → Bool)
    (hi : 0 < s.debounce_interval)
    (hs : s.scrolling_in_progress = true)
    (h1 : e.eventType ≠ .gestureScrollUpdate)
    (h2 : e.eventType ≠ .gesturePinchBegin)
    (h3 : e.eventType ≠ .gesturePinchEnd)
    (h4 : e.eventType ≠ .gesturePinchUpdate) :
    DebounceOrForwardEvent false e s =
      (false,
       { s with debouncing_deferral_queue :=
           s.debouncing_deferral_queue ++ [e] },
       []) ∧
    (SendScrollEndingEventsNow filt u).1.scrolling_in_progress = false ∧
    (SendScrollEndingEventsNow filt u).1.debouncing_deferral_queue = [] ∧
    sentEvents (SendScrollEndingEventsNow filt u).2 =
      u.debouncing_deferral_queue.filter (fun x => !(filt x)) := by
  have h0 : ¬ s.debounce_interval ≤ 0 := not_le.mpr hi
  refine ⟨?_, ?_⟩
  · unfold DebounceOrForwardEvent ShouldForwardForBounceReduction
    cases he : e.eventType <;> simp [he] at h1 h2 h3 h4 ⊢ <;> simp [h0, hs]
  · unfold SendScrollEndingEventsNow
    rcases hq : u.debouncing_deferral_queue with _ | ⟨x, xs⟩
    · simp [hq, sentEvents]
    · have hfr := drainDeferred_frame filt (x :: xs)
        { u with scrolling_in_progress := false,
                 debouncing_deferral_queue := [] }
      have hse := sentEvents_drainDeferred filt (x :: xs)
        { u with scrolling_in_progress := false,
                 debouncing_deferral_queue := [] }
      simp only [hq]
      simp only [List.isEmpty_cons]
      exact ⟨by simpa using hfr.1, by simpa using hfr.2, by simpa using hse⟩

def sampleScrollEnd : GestureEventWithLatencyInfo := ⟨.gestureScrollEnd, 3, []⟩

def sampleDeferQueueState : QueueState :=
  ⟨true, 100, true, [sampleDeferredTap, sampleScrollEnd], [], [], false⟩

/-- Witness for C5: a tap-down while scrolling is deferred; a later timer fire
on a state holding two deferred events forwards exactly those the fling filter
does not consume, in order. -/
theorem C5_defer_and_timer_fire_witness :
    0 < sampleDeferQueueState.debounce_interval ∧
    sampleDeferQueueState.scrolling_in_progress = true ∧
    sampleDeferredTap.eventType ≠ .gestureScrollUpdate ∧
    sampleDeferredTap.eventType ≠ .gesturePinchBegin ∧
    sampleDeferredTap.eventType ≠ .gesturePinchEnd ∧
    sampleDeferredTap.eventType ≠ .gesturePinchUpdate ∧
    (DebounceOrForwardEvent false sampleDeferredTap sampleDeferQueueState =
      (false,
       { sampleDeferQueueState with debouncing_deferral_queue :=
           sampleDeferQueueState.debouncing_deferral_queue ++
             [sampleDeferredTap] },
       []) ∧
     (SendScrollEndingEventsNow (fun _ => false)
        sampleDeferQueueState).1.scrolling_in_progress = false ∧
     (SendScrollEndingEventsNow (fun _ => false)
        sampleDeferQueueState).1.debouncing_deferral_queue = [] ∧
     sentEvents (SendScrollEndingEventsNow (fun _ => false)
        sampleDeferQueueState).2 =
       sampleDeferQueueState.debouncing_deferral_queue.filter
         (fun x => !((fun _ => false) x))) :=
  ⟨by decide, rfl, by decide, by decide, by decide, by decide,
   C5_defer_and_timer_fire sampleDeferQueueState sampleDeferQueueState
     sampleDeferredTap (fun _ => false) (by decide) rfl (by decide)
     (by decide) (by decide) (by decide)⟩

theorem processAckUpdate_map_ackProj (src : InputEventAckSource)
    (res : InputEventAckState) (ty : WebInputEventType) (lat : List Nat)
    (l : List GestureEventWithLatencyInfoAndAckState) :
    (processAckUpdate src res ty lat l).map ackProj = l.map ackProj := by
  induction l with
  | nil => rfl
  | cons a rest ih =>
    unfold processAckUpdate
    by_cases h1 : a.ackState = .unknown
    · by_cases h2 : a.event.eventType = ty <;> simp [h1, h2, ih, ackProj]
    · simp [h1, ih]

theorem processAckUpdate_length (src : InputEventAckSource)
    (res : InputEventAckState) (ty : WebInputEventType) (lat : List Nat)
    (l : List GestureEventWithLatencyInfoAndAckState) :
    (processAckUpdate src res ty lat l).length = l.length := by
  have h := congrArg List.length (processAckUpdate_map_ackProj src res ty lat l)
  simpa using h

theorem dropWhile_as_drop {α : Type} (p : α → Bool) (l : List α) :
    ∃ n, l.dropWhile p = l.drop n := by
  induction l with
  | nil => exact ⟨0, rfl⟩
  | cons a rest ih =>
    by_cases h : p a
    · obtain ⟨n, hn⟩ := ih
      exact ⟨n + 1, by simp [List.dropWhile_cons, h, hn]⟩
    · exact ⟨0, by simp [List.dropWhile_cons, h]⟩

/-- The status test of the release loop as a Bool predicate. -/
def ackKnown (a : GestureEventWithLatencyInfoAndAckState) : Bool :=
  a.ackState ≠ .unknown

theorem ackCompletedLoop_eq
    (l : List GestureEventWithLatencyInfoAndAckState) :
    ackCompletedLoop l = (l.dropWhile ackKnown, l.takeWhile ackKnown) := by
  induction l with
  | nil => rfl
  | cons a rest ih =>
    unfold ackCompletedLoop
    by_cases h : a.ackState = .unknown <;>
      simp [h, ih, List.dropWhile_cons, List.takeWhile_cons, ackKnown]

theorem processAckUpdate_firstMatch (src : InputEventAckSource)
    (res : InputEventAckState) (ty : WebInputEventType) (lat : List Nat)
    (l₁ l₂ : List GestureEventWithLatencyInfoAndAckState)
    (b : GestureEventWithLatencyInfoAndAckState)
    (h₁ : ∀ a ∈ l₁, ¬(a.ackState = .unknown ∧ a.event.eventType = ty))
    (hb1 : b.ackState = .unknown) (hb2 : b.event.eventType = ty) :
    processAckUpdate src res ty lat (l₁ ++ b :: l₂) =
      l₁ ++ ({ b with
                 event := { b.event with latency := b.event.latency ++ lat },
                 ackState := res, ackSource := src } :: l₂) := by
  induction l₁ with
  | nil =>
    unfold processAckUpdate
    simp [hb1, hb2]
  | cons a rest ih =>
    have ha := h₁ a (List.mem_cons_self a rest)
    have ih2 := ih fun x hx => h₁ x (List.mem_cons_of_mem a hx)
    rw [List.cons_append, List.cons_append]
    unfold processAckUpdate
    by_cases h : a.ackState = .unknown
    · have hty : ¬ a.event.eventType = ty := fun hc => ha ⟨h, hc⟩
      simp [h, hty, ih2]
    · simp [h, ih2]

theorem processAckUpdate_noMatch (src : InputEventAckSource)
    (res : InputEventAckState) (ty : WebInputEventType) (lat : List Nat)
    (l : List GestureEventWithLatencyInfoAndAckState)
    (h : ∀ a ∈ l, a.ackState = .unknown → a.event.eventType ≠ ty) :
    processAckUpdate src res ty lat l = l := by
  induction l with
  | nil => rfl
  | cons a rest ih =>
    have ih2 := ih fun x hx => h x (List.mem_cons_of_mem a hx)
    unfold processAckUpdate
    by_cases h1 : a.ackState = .unknown
    · have := h a (List.mem_cons_self a rest) h1
      simp [h1, this, ih2]
    · simp [h1, ih2]

/-- C7: `ProcessGestureAck` on a non-empty buffer updates exactly the first
entry (front to back) that is still Unknown and has the given kind — merging
the supplied latency and setting its status and ack source — changes no other
entry, may match at any position, and never reorders the buffer: the
match-and-update step preserves every entry's identity position-wise, and the
subsequent release step only drops a front segment (the final buffer is a
suffix of the updated one). -/
theorem C7_ack_matching (s : QueueState)
    (l₁ l₂ : List GestureEventWithLatencyInfoAndAckState)
    (b : GestureEventWithLatencyInfoAndAckState) (args : AckArgs)
    (hdec : s.sent_events_awaiting_ack = l₁ ++ b :: l₂)
    (h₁ : ∀ a ∈ l₁, ¬(a.ackState = .unknown ∧ a.event.eventType = args.ty))
    (hb1 : b.ackState = .unknown) (hb2 : b.event.eventType = args.ty) :
    processAckUpdate args.src args.res args.ty args.lat
        s.sent_events_awaiting_ack =
      l₁ ++ ({ b with
                 event := { b.event with
                              latency := b.event.latency ++ args.lat },
                 ackState := args.res, ackSource := args.src } :: l₂) ∧
    (processAckUpdate args.src args.res args.ty args.lat
        s.sent_events_awaiting_ack).map ackProj =
      s.sent_events_awaiting_ack.map ackProj ∧
    ∃ n, (ProcessGestureAck args.src args.res args.ty args.lat
        s).1.sent_events_awaiting_ack =
      (processAckUpdate args.src args.res args.ty args.lat
        s.sent_events_awaiting_ack).drop n := by
  refine ⟨?_, processAckUpdate_map_ackProj _ _ _ _ _, ?_⟩
  · rw [hdec]
    exact processAckUpdate_firstMatch args.src args.res args.ty
      args.lat l₁ l₂ b h₁ hb1 hb2
  have hne : s.sent_events_awaiting_ack.isEmpty = false := by
    rw [hdec]; cases l₁ <;> rfl
  unfold ProcessGestureAck
  rw [hne]
  simp only [Bool.false_eq_true, if_false]
  unfold AckCompletedEvents
  by_cases hp : s.processing_acks
  · simp only [hp, if_true]
    exact ⟨0, rfl⟩
  · simp only [hp, Bool.false_eq_true, if_false, ackCompletedLoop_eq]
    exact dropWhile_as_drop ackKnown _

def sampleAckedEntry : GestureEventWithLatencyInfoAndAckState :=
  ⟨⟨.gestureScrollBegin, 10, []⟩, .consumed, .browser⟩

def samplePendingScrollEnd : GestureEventWithLatencyInfoAndAckState :=
  ⟨⟨.gestureScrollEnd, 11, [2]⟩, .unknown, .unknownSource⟩

def samplePendingTap : GestureEventWithLatencyInfoAndAckState :=
  ⟨⟨.gestureTap, 12, []⟩, .unknown, .unknownSource⟩

def sampleAckBufferState : QueueState :=
  ⟨false, 0, false, [], [],
   [sampleAckedEntry, samplePendingScrollEnd, samplePendingTap], false⟩

def scrollEndAckArgs : AckArgs := ⟨.mainThreadRenderer, .notConsumed,
  .gestureScrollEnd, [9]⟩

/-- Witness for C7: an ack for scroll-end matches the middle entry of a
three-entry buffer (front entry already acked but of a different kind). -/
theorem C7_ack_matching_witness :
    sampleAckBufferState.sent_events_awaiting_ack =
      [sampleAckedEntry] ++ samplePendingScrollEnd :: [samplePendingTap] ∧
    (∀ a ∈ [sampleAckedEntry],
      ¬(a.ackState = .unknown ∧
        a.event.eventType = scrollEndAckArgs.ty)) ∧
    samplePendingScrollEnd.ackState = .unknown ∧
    samplePendingScrollEnd.event.eventType = scrollEndAckArgs.ty ∧
    (processAckUpdate scrollEndAckArgs.src scrollEndAckArgs.res
        scrollEndAckArgs.ty scrollEndAckArgs.lat
        sampleAckBufferState.sent_events_awaiting_ack =
      [sampleAckedEntry] ++
        ({ samplePendingScrollEnd with
             event := { samplePendingScrollEnd.event with
                          latency := samplePendingScrollEnd.event.latency ++
                            scrollEndAckArgs.lat },
             ackState := scrollEndAckArgs.res,
             ackSource := scrollEndAckArgs.src } :: [samplePendingTap]) ∧
     (processAckUpdate scrollEndAckArgs.src scrollEndAckArgs.res
        scrollEndAckArgs.ty scrollEndAckArgs.lat
        sampleAckBufferState.sent_events_awaiting_ack).map ackProj =
      sampleAckBufferState.sent_events_awaiting_ack.map ackProj ∧
     ∃ n, (ProcessGestureAck scrollEndAckArgs.src scrollEndAckArgs.res
        scrollEndAckArgs.ty scrollEndAckArgs.lat
        sampleAckBufferState).1.sent_events_awaiting_ack =
      (processAckUpdate scrollEndAckArgs.src scrollEndAckArgs.res
        scrollEndAckArgs.ty scrollEndAckArgs.lat
        sampleAckBufferState.sent_events_awaiting_ack).drop n) :=
  ⟨rfl, by decide, rfl, rfl,
   C7_ack_matching sampleAckBufferState [sampleAckedEntry] [samplePendingTap]
     samplePendingScrollEnd scrollEndAckArgs rfl (by decide) rfl rfl⟩

/-- C8: `ProcessGestureAck` on an empty buffer is a no-op apart from its
diagnostic (the state, in particular the empty buffer, is unchanged and no
`OnGestureEventAck` is emitted); and on a non-empty buffer whose front is
still Unknown, when no Unknown entry matches the given kind, no entry is
mutated and no release occurs: the call returns the state unchanged with no
calls to collaborators. -/
theorem C8_unexpected_and_unmatched (s t : QueueState) (args : AckArgs)
    (hs : s.sent_events_awaiting_ack = [])
    (ht1 : ∀ a ∈ t.sent_events_awaiting_ack,
      a.ackState = .unknown → a.event.eventType ≠ args.ty)
    (ht2 : ∀ a, t.sent_events_awaiting_ack.head? = some a →
      a.ackState = .unknown)
    (ht0 : t.sent_events_awaiting_ack ≠ []) :
    ProcessGestureAck args.src args.res args.ty args.lat s =
      (s, [.dlogUnexpectedAck args.ty]) ∧
    ProcessGestureAck args.src args.res args.ty args.lat t = (t, []) := by
  constructor
  · unfold ProcessGestureAck
    simp [hs]
  · have hup := processAckUpdate_noMatch args.src args.res args.ty args.lat
      t.sent_events_awaiting_ack ht1
    have hne : t.sent_events_awaiting_ack.isEmpty = false := by
      rcases hq : t.sent_events_awaiting_ack with _ | ⟨a, rest⟩
      · exact absurd hq ht0
      · rfl
    have hst : ProcessGestureAck args.src args.res args.ty args.lat t =
        AckCompletedEvents t := by
      unfold ProcessGestureAck
      rw [hne]
      simp only [Bool.false_eq_true, if_false]
      congr 1
      rw [hup]
    rw [hst]
    unfold AckCompletedEvents
    by_cases hp : t.processing_acks
    · rw [if_pos hp]
    · rw [if_neg hp]
      rcases hq : t.sent_events_awaiting_ack with _ | ⟨a, rest⟩
      · exact absurd hq ht0
      · have ha : a.ackState = .unknown := ht2 a (by rw [hq]; rfl)
        have hloop : ackCompletedLoop (a :: rest) = (a :: rest, []) := by
          unfold ackCompletedLoop
          simp [ha]
        simp only [hloop, List.map_nil]
        rw [← hq]

def sampleEmptyBufState : QueueState := ⟨false, 0, false, [], [], [], false⟩

def sampleUnmatchedState : QueueState :=
  ⟨false, 0, false, [], [], [samplePendingTap], false⟩

/-- Witness for C8: an ack for scroll-end against an empty buffer, and
against a buffer holding only a pending tap. -/
theorem C8_unexpected_and_unmatched_witness :
    sampleEmptyBufState.sent_events_awaiting_ack = [] ∧
    (∀ a ∈ sampleUnmatchedState.sent_events_awaiting_ack,
      a.ackState = .unknown →
        a.event.eventType ≠ scrollEndAckArgs.ty) ∧
    (∀ a, sampleUnmatchedState.sent_events_awaiting_ack.head? = some a →
      a.ackState = .unknown) ∧
    sampleUnmatchedState.sent_events_awaiting_ack ≠ [] ∧
    (ProcessGestureAck scrollEndAckArgs.src scrollEndAckArgs.res
        scrollEndAckArgs.ty scrollEndAckArgs.lat sampleEmptyBufState =
      (sampleEmptyBufState, [.dlogUnexpectedAck scrollEndAckArgs.ty]) ∧
     ProcessGestureAck scrollEndAckArgs.src scrollEndAckArgs.res
        scrollEndAckArgs.ty scrollEndAckArgs.lat sampleUnmatchedState =
      (sampleUnmatchedState, [])) :=
  ⟨rfl, by decide, by decide, by decide,
   C8_unexpected_and_unmatched sampleEmptyBufState sampleUnmatchedState
     scrollEndAckArgs rfl (by decide) (by decide) (by decide)⟩

theorem ackCompletedEvents_guarded (s : QueueState)
    (h : s.processing_acks = true) : AckCompletedEvents s = (s, []) := by
  unfold AckCompletedEvents
  rw [if_pos h]

theorem ackCompletedEventsReentrant_guarded (calls : List (Option AckArgs))
    (s : QueueState) (h : s.processing_acks = true) :
    AckCompletedEventsReentrant calls s = (s, []) := by
  unfold AckCompletedEventsReentrant
  rw [if_pos h]

/-- Abbreviation for replacing the `sent_events_awaiting_ack_` member. -/
def withAckBuffer (l : List GestureEventWithLatencyInfoAndAckState)
    (s : QueueState) : QueueState :=
  { s with sent_events_awaiting_ack := l }

theorem processGestureAck_eq_of_nonempty (src : InputEventAckSource)
    (res : InputEventAckState) (ty : WebInputEventType) (lat : List Nat)
    (s : QueueState)
    (he : s.sent_events_awaiting_ack.isEmpty = false) :
    ProcessGestureAck src res ty lat s =
      AckCompletedEvents
        (withAckBuffer
          (processAckUpdate src res ty lat s.sent_events_awaiting_ack) s) := by
  unfold ProcessGestureAck withAckBuffer
  rw [he]
  simp

theorem processGestureAck_during_drain (src : InputEventAckSource)
    (res : InputEventAckState) (ty : WebInputEventType) (lat : List Nat)
    (s : QueueState) (h : s.processing_acks = true) :
    (ProcessGestureAck src res ty lat s).1.sent_events_awaiting_ack.map
        ackProj = s.sent_events_awaiting_ack.map ackProj ∧
    (ProcessGestureAck src res ty lat s).1.processing_acks = true := by
  by_cases he : s.sent_events_awaiting_ack.isEmpty
  · unfold ProcessGestureAck
    rw [if_pos he]
    exact ⟨rfl, h⟩
  · rw [processGestureAck_eq_of_nonempty src res ty lat s
      (by rwa [Bool.not_eq_true] at he)]
    rw [ackCompletedEvents_guarded
      (withAckBuffer
        (processAckUpdate src res ty lat s.sent_events_awaiting_ack) s) h]
    exact ⟨processAckUpdate_map_ackProj src res ty lat _, h⟩

theorem reentrantClientCall_drain (oc : Option (Option AckArgs))
    (s : QueueState) (h : s.processing_acks = true) :
    (reentrantClientCall oc s).sent_events_awaiting_ack.map ackProj =
      s.sent_events_awaiting_ack.map ackProj ∧
    (reentrantClientCall oc s).processing_acks = true := by
  rcases oc with _ | oc
  · exact ⟨rfl, h⟩
  · rcases oc with _ | c
    · exact ⟨rfl, h⟩
    · exact processGestureAck_during_drain c.src c.res c.ty c.lat s h

theorem reentrantLoop_take (fuel : Nat) (calls : List (Option AckArgs))
    (s : QueueState) (h : s.processing_acks = true) :
    (ackCompletedLoopReentrant fuel calls s).2 =
      (s.sent_events_awaiting_ack.map ackProj).take
        (ackCompletedLoopReentrant fuel calls s).2.length := by
  induction fuel generalizing calls s with
  | zero => rfl
  | succ fuel ih =>
    rcases hb : s.sent_events_awaiting_ack with _ | ⟨a, rest⟩
    · simp only [ackCompletedLoopReentrant, hb]
      rfl
    · by_cases ha : a.ackState = .unknown
      · simp only [ackCompletedLoopReentrant, hb, if_pos ha]
        rfl
      · simp only [ackCompletedLoopReentrant, hb, if_neg ha]
        have hc := reentrantClientCall_drain calls.head?
          { s with sent_events_awaiting_ack := rest } h
        have hih := ih calls.tail _ hc.2
        rw [List.map_cons, List.length_cons, List.take_succ_cons, ← hc.1,
          ← hih]

/-- C3: the release loop is protected against re-entrancy. If reporting an
acknowledgment synchronously triggers another acknowledgment cycle while a
release pass is in progress (`processing_acks_` set), the nested
`AckCompletedEvents` is a no-op — it removes nothing from
`sent_events_awaiting_ack_` — and a nested `ProcessGestureAck` can only
update statuses, preserving every entry's identity position-wise; the outer
pass keeps draining and the sequence of releases it reports is an in-order
front prefix of the buffer it started from, so no entry is released twice or
out of forwarding order. -/
theorem C3_reentrancy (s t : QueueState) (calls : List (Option AckArgs))
    (args : AckArgs) (hs : s.processing_acks = true)
    (ht : t.processing_acks = false) :
    AckCompletedEvents s = (s, []) ∧
    AckCompletedEventsReentrant calls s = (s, []) ∧
    (ProcessGestureAck args.src args.res args.ty args.lat
        s).1.sent_events_awaiting_ack.map ackProj =
      s.sent_events_awaiting_ack.map ackProj ∧
    (AckCompletedEventsReentrant calls t).2 =
      (t.sent_events_awaiting_ack.map ackProj).take
        (AckCompletedEventsReentrant calls t).2.length := by
  refine ⟨ackCompletedEvents_guarded s hs,
    ackCompletedEventsReentrant_guarded calls s hs,
    (processGestureAck_during_drain args.src args.res args.ty args.lat
      s hs).1, ?_⟩
  unfold AckCompletedEventsReentrant
  rw [if_neg (by rw [ht]; exact Bool.false_ne_true)]
  exact reentrantLoop_take t.sent_events_awaiting_ack.length calls
    { t with processing_acks := true } rfl

def sampleGuardedState : QueueState :=
  ⟨false, 0, false, [], [], [sampleAckedEntry, samplePendingTap], true⟩

def sampleDrainState : QueueState :=
  ⟨false, 0, false, [], [],
   [sampleAckedEntry, samplePendingScrollEnd, samplePendingTap], false⟩

/-- Witness for C3: a nested cycle against a mid-drain state (guard set) is a
no-op, and an outer drain whose client acknowledges the scroll-end entry from
inside the callback still releases an in-order front prefix. -/
theorem C3_reentrancy_witness :
    sampleGuardedState.processing_acks = true ∧
    sampleDrainState.processing_acks = false ∧
    (AckCompletedEvents sampleGuardedState = (sampleGuardedState, []) ∧
     AckCompletedEventsReentrant [some scrollEndAckArgs]
       sampleGuardedState = (sampleGuardedState, []) ∧
     (ProcessGestureAck scrollEndAckArgs.src scrollEndAckArgs.res
        scrollEndAckArgs.ty scrollEndAckArgs.lat
        sampleGuardedState).1.sent_events_awaiting_ack.map ackProj =
       sampleGuardedState.sent_events_awaiting_ack.map ackProj ∧
     (AckCompletedEventsReentrant [some scrollEndAckArgs]
        sampleDrainState).2 =
       (sampleDrainState.sent_events_awaiting_ack.map ackProj).take
         (AckCompletedEventsReentrant [some scrollEndAckArgs]
           sampleDrainState).2.length) :=
  ⟨rfl, rfl,
   C3_reentrancy sampleGuardedState sampleDrainState [some scrollEndAckArgs]
     scrollEndAckArgs rfl rfl⟩

theorem ackProj_mkPendingAck (e : GestureEventWithLatencyInfo) :
    ackProj (mkPendingAck e) = gevProj e := rfl

theorem forwardAll_state (es : List GestureEventWithLatencyInfo)
    (s : QueueState) :
    (forwardAll es s).1 =
      withAckBuffer
        (s.sent_events_awaiting_ack ++ es.map mkPendingAck) s := by
  induction es generalizing s with
  | nil => simp [forwardAll, withAckBuffer]
  | cons e rest ih =>
    simp only [forwardAll]
    rw [ih]
    simp [ForwardGestureEvent_state, withAckBuffer]

theorem mem_of_head? {α : Type} {l : List α} {a : α}
    (h : l.head? = some a) : a ∈ l := by
  cases l with
  | nil => exact absurd h (by simp)
  | cons x xs =>
    have hx : x = a := by simpa using h
    rw [← hx]
    exact List.mem_cons_self x xs

theorem head?_dropWhile_false {α : Type} (p : α → Bool) (l : List α)
    (a : α) (h : (l.dropWhile p).head? = some a) : p a = false := by
  induction l with
  | nil => exact absurd h (by simp)
  | cons x xs ih =>
    rw [List.dropWhile_cons] at h
    by_cases hx : p x
    · rw [if_pos hx] at h
      exact ih h
    · rw [if_neg hx] at h
      have hxa : x = a := by simpa using h
      rw [← hxa]
      exact Bool.not_eq_true _ ▸ by simpa using hx

theorem ackKnown_eq_mem (S : List WebInputEventType)
    (a : GestureEventWithLatencyInfoAndAckState)
    (hpred : a.ackState = .unknown ↔ a.event.eventType ∉ S) :
    ackKnown a = decide (a.event.eventType ∈ S) := by
  by_cases hm : a.event.eventType ∈ S
  · have hk : a.ackState ≠ .unknown := fun hu => (hpred.mp hu) hm
    simp [ackKnown, hk, hm]
  · have hu : a.ackState = .unknown := hpred.mpr hm
    simp [ackKnown, hu, hm]

theorem reportedAcks_ackEffects
    (l : List GestureEventWithLatencyInfoAndAckState) :
    reportedAcks (l.map fun a =>
      Effect.onGestureEventAck a.event a.ackSource a.ackState) =
      l.map ackProj := by
  induction l with
  | nil => rfl
  | cons a rest ih =>
    simp only [List.map_cons, reportedAcks, List.filterMap_cons] at ih ⊢
    rw [ih]
    rfl

/-- The acked-status predicate of a buffer matching the set `S` of kinds
acknowledged so far, transferred through the identity projections: take/drop
of the buffer by status corresponds to take/drop of the underlying event
sequence by kind membership. -/
theorem takeWhile_dropWhile_transfer (S : List WebInputEventType)
    (B : List GestureEventWithLatencyInfoAndAckState)
    (rem : List GestureEventWithLatencyInfo)
    (hmap : B.map ackProj = rem.map gevProj)
    (hpred : ∀ a ∈ B, (a.ackState = .unknown ↔ a.event.eventType ∉ S)) :
    (B.takeWhile ackKnown).map ackProj =
      (rem.takeWhile fun e => decide (e.eventType ∈ S)).map gevProj ∧
    (B.dropWhile ackKnown).map ackProj =
      (rem.dropWhile fun e => decide (e.eventType ∈ S)).map gevProj := by
  induction B generalizing rem with
  | nil =>
    have hrem : rem = [] := by
      cases rem with
      | nil => rfl
      | cons e l => exact absurd hmap (by simp)
    rw [hrem]
    exact ⟨rfl, rfl⟩
  | cons a B ih =>
    cases rem with
    | nil => exact absurd hmap (by simp)
    | cons e rem =>
      have hhd : ackProj a = gevProj e := by
        have := congrArg List.head? hmap
        simpa using this
      have htl : B.map ackProj = rem.map gevProj := by
        have := congrArg List.tail hmap
        simpa using this
      have hty : a.event.eventType = e.eventType :=
        congrArg Prod.snd hhd
      have hk : ackKnown a = decide (e.eventType ∈ S) := by
        rw [ackKnown_eq_mem S a (hpred a (List.mem_cons_self a B)), hty]
      have hih := ih rem htl
        (fun x hx => hpred x (List.mem_cons_of_mem a hx))
      rw [List.takeWhile_cons, List.takeWhile_cons, List.dropWhile_cons,
        List.dropWhile_cons, hk]
      by_cases hm : e.eventType ∈ S
      · have hd : decide (e.eventType ∈ S) = true := by simp [hm]
        rw [hd]
        exact ⟨by simp [hhd, hih.1], by simp [hih.2]⟩
      · have hd : decide (e.eventType ∈ S) = false := by simp [hm]
        rw [hd]
        exact ⟨by simp, by simpa using hmap⟩

/-- After the acknowledgment-matching scan for a kind `ty` not yet in `S`
(acknowledged with a non-Unknown result), the buffer's statuses track
membership in `ty :: S`, provided the buffer's kinds are distinct. -/
theorem processAckUpdate_pred (src : InputEventAckSource)
    (res : InputEventAckState) (ty : WebInputEventType) (lat : List Nat)
    (l : List GestureEventWithLatencyInfoAndAckState)
    (S : List WebInputEventType)
    (hnd : (l.map fun a => a.event.eventType).Nodup)
    (hpred : ∀ a ∈ l, (a.ackState = .unknown ↔ a.event.eventType ∉ S))
    (_hnot : ty ∉ S) (hres : res ≠ .unknown) :
    ∀ a ∈ processAckUpdate src res ty lat l,
      (a.ackState = .unknown ↔ a.event.eventType ∉ ty :: S) := by
  induction l with
  | nil => intro a ha; exact absurd ha (by simp [processAckUpdate])
  | cons b l ih =>
    intro a ha
    have hpb := hpred b (List.mem_cons_self b l)
    have hndt : (l.map fun a => a.event.eventType).Nodup :=
      (List.nodup_cons.mp hnd).2
    have hbn : b.event.eventType ∉ l.map fun a => a.event.eventType :=
      (List.nodup_cons.mp hnd).1
    unfold processAckUpdate at ha
    by_cases h1 : b.ackState = .unknown
    · by_cases h2 : b.event.eventType = ty
      · simp only [h1, ne_eq, not_true_eq_false, if_false, h2, if_true] at ha
        rcases List.mem_cons.mp ha with rfl | ha2
        · constructor
          · intro hu
            exact absurd hu hres
          · intro hm
            exact absurd (List.mem_cons_self ty S) hm
        · have hpa := hpred a (List.mem_cons_of_mem b ha2)
          have hane : a.event.eventType ≠ ty := by
            intro hc
            exact hbn (by
              rw [h2]
              rw [← hc]
              exact List.mem_map_of_mem (fun x => x.event.eventType) ha2)
          constructor
          · intro hu
            intro hm
            rcases List.mem_cons.mp hm with hm1 | hm2
            · exact hane hm1
            · exact (hpa.mp hu) hm2
          · intro hm
            exact hpa.mpr fun hm2 => hm (List.mem_cons_of_mem ty hm2)
      · simp only [h1, ne_eq, not_true_eq_false, if_false, h2] at ha
        rcases List.mem_cons.mp ha with rfl | ha2
        · have hbs : a.event.eventType ∉ S := hpb.mp h1
          constructor
          · intro _ hm
            rcases List.mem_cons.mp hm with hm1 | hm2
            · exact h2 hm1
            · exact hbs hm2
          · intro _
            exact h1
        · exact ih hndt
            (fun x hx => hpred x (List.mem_cons_of_mem b hx)) a ha2
    · simp only [h1, ne_eq, not_false_eq_true, if_true] at ha
      rcases List.mem_cons.mp ha with rfl | ha2
      · have hbs : a.event.eventType ∈ S := by
          by_contra hc
          exact h1 (hpb.mpr hc)
        constructor
        · intro hu
          exact absurd hu h1
        · intro hm
          exact absurd (List.mem_cons_of_mem ty hbs) hm
      · exact ih hndt
          (fun x hx => hpred x (List.mem_cons_of_mem b hx)) a ha2

/-- The draining invariant for C1: having forwarded the event sequence `es`
(distinct kinds) and processed exactly the kinds in `S`, a prefix `done` of
`es` has been reported to the client in order, the buffer holds the remaining
suffix in order, an entry's status has left Unknown exactly when its kind was
acknowledged, and the buffer front (if any) is still Unknown. -/
def AckInv (es : List GestureEventWithLatencyInfo)
    (S : List WebInputEventType) (s : QueueState)
    (rep : List (Nat × WebInputEventType)) : Prop :=
  s.processing_acks = false ∧
  ∃ done rem, es = done ++ rem ∧
    rep = done.map gevProj ∧
    s.sent_events_awaiting_ack.map ackProj = rem.map gevProj ∧
    (∀ a ∈ s.sent_events_awaiting_ack,
      (a.ackState = .unknown ↔ a.event.eventType ∉ S)) ∧
    (∀ e ∈ done, e.eventType ∈ S) ∧
    (∀ a, s.sent_events_awaiting_ack.head? = some a →
      a.ackState = .unknown)

theorem ackInv_init (es : List GestureEventWithLatencyInfo)
    (s0 : QueueState) (hbuf : s0.sent_events_awaiting_ack = [])
    (hpa : s0.processing_acks = false) :
    AckInv es [] (forwardAll es s0).1 [] := by
  rw [forwardAll_state, hbuf, List.nil_append]
  refine ⟨hpa, [], es, by simp, rfl, ?_, ?_, by simp, ?_⟩
  · simp [withAckBuffer, ackProj_mkPendingAck]
  · intro a ha
    simp only [withAckBuffer] at ha
    rcases List.mem_map.mp ha with ⟨e, _, rfl⟩
    simp [mkPendingAck]
  · intro a ha
    simp only [withAckBuffer] at ha
    have ham := mem_of_head? ha
    rcases List.mem_map.mp ham with ⟨e, _, rfl⟩
    rfl

@[simp] theorem withAckBuffer_sent
    (l : List GestureEventWithLatencyInfoAndAckState) (s : QueueState) :
    (withAckBuffer l s).sent_events_awaiting_ack = l := rfl

@[simp] theorem withAckBuffer_processing
    (l : List GestureEventWithLatencyInfoAndAckState) (s : QueueState) :
    (withAckBuffer l s).processing_acks = s.processing_acks := rfl

theorem ackCompletedEvents_unguarded (s : QueueState)
    (h : s.processing_acks = false) :
    AckCompletedEvents s =
      (withAckBuffer (s.sent_events_awaiting_ack.dropWhile ackKnown) s,
       (s.sent_events_awaiting_ack.takeWhile ackKnown).map fun a =>
         Effect.onGestureEventAck a.event a.ackSource a.ackState) := by
  unfold AckCompletedEvents
  rw [if_neg (by rw [h]; exact Bool.false_ne_true), ackCompletedLoop_eq]
  rfl

theorem ackInv_step (es : List GestureEventWithLatencyInfo)
    (S : List WebInputEventType) (s : QueueState)
    (rep : List (Nat × WebInputEventType)) (c : AckArgs)
    (hinv : AckInv es S s rep)
    (hnd : (es.map fun e => e.eventType).Nodup)
    (hty : c.ty ∈ es.map fun e => e.eventType)
    (hnot : c.ty ∉ S)
    (hres : c.res ≠ .unknown) :
    AckInv es (c.ty :: S) (ProcessGestureAck c.src c.res c.ty c.lat s).1
      (rep ++
        reportedAcks (ProcessGestureAck c.src c.res c.ty c.lat s).2) := by
  obtain ⟨hpa, done, rem, hsplit, hrep, hmap, hpred, hdone, hhead⟩ := hinv
  have htyrem : c.ty ∈ rem.map fun e => e.eventType := by
    have hm0 : c.ty ∈ (done.map fun e => e.eventType) ++
        (rem.map fun e => e.eventType) := by
      rw [← List.map_append, ← hsplit]
      exact hty
    rcases List.mem_append.mp hm0 with hmem | hmem
    · rcases List.mem_map.mp hmem with ⟨e, he, hee⟩
      exact absurd (hee ▸ hdone e he) hnot
    · exact hmem
  have hremne : rem ≠ [] := by
    intro hc
    rw [hc] at htyrem
    exact absurd htyrem (by simp)
  have hbe : s.sent_events_awaiting_ack.isEmpty = false := by
    rcases hb : s.sent_events_awaiting_ack with _ | ⟨a, B⟩
    · rw [hb] at hmap
      rcases hr : rem with _ | ⟨e, rem2⟩
      · exact absurd hr hremne
      · rw [hr] at hmap
        exact absurd hmap (by simp)
    · rfl
  rw [processGestureAck_eq_of_nonempty c.src c.res c.ty c.lat s hbe]
  have hndrem : (rem.map fun e => e.eventType).Nodup := by
    rw [hsplit, List.map_append] at hnd
    exact hnd.of_append_right
  have hbt : (s.sent_events_awaiting_ack.map fun a => a.event.eventType) =
      rem.map fun e => e.eventType := by
    have h1 := congrArg (List.map Prod.snd) hmap
    rw [List.map_map, List.map_map] at h1
    exact h1
  have hndbuf :
      (s.sent_events_awaiting_ack.map fun a => a.event.eventType).Nodup := by
    rw [hbt]
    exact hndrem
  have hpred1 := processAckUpdate_pred c.src c.res c.ty c.lat
    s.sent_events_awaiting_ack S hndbuf hpred hnot hres
  have hmap1 : (processAckUpdate c.src c.res c.ty c.lat
      s.sent_events_awaiting_ack).map ackProj = rem.map gevProj := by
    rw [processAckUpdate_map_ackProj]
    exact hmap
  have htr := takeWhile_dropWhile_transfer (c.ty :: S)
    (processAckUpdate c.src c.res c.ty c.lat s.sent_events_awaiting_ack)
    rem hmap1 hpred1
  rw [ackCompletedEvents_unguarded
    (withAckBuffer (processAckUpdate c.src c.res c.ty c.lat
      s.sent_events_awaiting_ack) s) hpa]
  refine ⟨by simpa using hpa,
    done ++ (rem.takeWhile fun e => decide (e.eventType ∈ c.ty :: S)),
    rem.dropWhile (fun e => decide (e.eventType ∈ c.ty :: S)),
    ?_, ?_, ?_, ?_, ?_, ?_⟩
  · rw [hsplit, List.append_assoc, List.takeWhile_append_dropWhile]
  · rw [reportedAcks_ackEffects, List.map_append, hrep]
    simp only [withAckBuffer_sent]
    rw [htr.1]
  · simp only [withAckBuffer_sent]
    exact htr.2
  · intro a ha
    simp only [withAckBuffer_sent] at ha
    exact hpred1 a ((List.dropWhile_sublist _).subset ha)
  · intro e he
    rcases List.mem_append.mp he with he1 | he2
    · exact List.mem_cons_of_mem c.ty (hdone e he1)
    · have hp := List.mem_takeWhile_imp he2
      exact of_decide_eq_true hp
  · intro a ha
    simp only [withAckBuffer_sent] at ha
    have hf := head?_dropWhile_false ackKnown _ a ha
    simpa [ackKnown] using hf

theorem runAcks_inv (acks : List AckArgs)
    (es : List GestureEventWithLatencyInfo)
    (hnd : (es.map fun e => e.eventType).Nodup) :
    ∀ (S : List WebInputEventType) (s : QueueState)
      (rep : List (Nat × WebInputEventType)),
      AckInv es S s rep →
      (∀ c ∈ acks, c.res ≠ .unknown ∧
        (c.ty ∈ es.map fun e => e.eventType) ∧ c.ty ∉ S) →
      (acks.map fun c => c.ty).Nodup →
      AckInv es ((acks.map fun c => c.ty).reverse ++ S) (runAcks acks s).1
        (rep ++ reportedAcks (runAcks acks s).2) := by
  induction acks with
  | nil =>
    intro S s rep hinv _ _
    simpa [runAcks, reportedAcks] using hinv
  | cons c rest ih =>
    intro S s rep hinv hall hacknd
    have hc := hall c (List.mem_cons_self c rest)
    have hstep := ackInv_step es S s rep c hinv hnd hc.2.1 hc.2.2 hc.1
    have hndr : (rest.map fun c => c.ty).Nodup :=
      (List.nodup_cons.mp hacknd).2
    have hcn : c.ty ∉ rest.map fun c => c.ty :=
      (List.nodup_cons.mp hacknd).1
    have hall2 : ∀ x ∈ rest, x.res ≠ .unknown ∧
        (x.ty ∈ es.map fun e => e.eventType) ∧ x.ty ∉ c.ty :: S := by
      intro x hx
      have h0 := hall x (List.mem_cons_of_mem c hx)
      refine ⟨h0.1, h0.2.1, ?_⟩
      intro hm
      rcases List.mem_cons.mp hm with h1 | h2
      · exact hcn (h1 ▸ List.mem_map_of_mem (fun c => c.ty) hx)
      · exact h0.2.2 h2
    have hrec := ih (c.ty :: S)
      (ProcessGestureAck c.src c.res c.ty c.lat s).1
      (rep ++ reportedAcks (ProcessGestureAck c.src c.res c.ty c.lat s).2)
      hstep hall2 hndr
    simp only [runAcks, List.map_cons, List.reverse_cons, List.append_assoc,
      List.singleton_append]
    rw [reportedAcks_append, ← List.append_assoc]
    exact hrec

/-- C1: forward N events of pairwise-distinct kinds, then process their
acknowledgments in an arbitrary permutation of the forwarding order: the
client's `OnGestureEventAck` is invoked exactly once per event, in exactly
the original forwarding order. Moreover the release loop only ever pops a
front segment whose statuses have left Unknown, contiguously from the front,
stopping at the first still-Unknown front entry. -/
theorem C1_ack_ordering (es : List GestureEventWithLatencyInfo)
    (acks : List AckArgs) (s0 : QueueState)
    (hbuf : s0.sent_events_awaiting_ack = [])
    (hpa : s0.processing_acks = false)
    (hnd : (es.map fun e => e.eventType).Nodup)
    (hperm : (acks.map fun c => c.ty).Perm (es.map fun e => e.eventType))
    (hres : ∀ c ∈ acks, c.res ≠ .unknown) :
    reportedAcks (runAcks acks (forwardAll es s0).1).2 = es.map gevProj ∧
    ∀ l : List GestureEventWithLatencyInfoAndAckState,
      l = (ackCompletedLoop l).2 ++ (ackCompletedLoop l).1 ∧
      (∀ a ∈ (ackCompletedLoop l).2, a.ackState ≠ .unknown) ∧
      (∀ a, (ackCompletedLoop l).1.head? = some a →
        a.ackState = .unknown) := by
  constructor
  · have hinv0 := ackInv_init es s0 hbuf hpa
    have hall : ∀ c ∈ acks, c.res ≠ .unknown ∧
        (c.ty ∈ es.map fun e => e.eventType) ∧
        c.ty ∉ ([] : List WebInputEventType) := by
      intro c hc
      exact ⟨hres c hc,
        hperm.mem_iff.mp (List.mem_map_of_mem (fun c => c.ty) hc),
        by simp⟩
    have hacknd : (acks.map fun c => c.ty).Nodup := hperm.nodup_iff.mpr hnd
    have hfin := runAcks_inv acks es hnd [] (forwardAll es s0).1 []
      hinv0 hall hacknd
    obtain ⟨hpaf, done, rem, hsplit, hrep, hmap, hpredf, hdonef, hheadf⟩ :=
      hfin
    have hmemS : ∀ t, t ∈ es.map (fun e => e.eventType) →
        t ∈ ((acks.map fun c => c.ty).reverse ++
          ([] : List WebInputEventType)) := by
      intro t ht
      rw [List.append_nil, List.mem_reverse]
      exact hperm.mem_iff.mpr ht
    have hrem : rem = [] := by
      rcases hr : rem with _ | ⟨e, rem2⟩
      · rfl
      · exfalso
        rw [hr] at hmap
        rcases hb : (runAcks acks
            (forwardAll es s0).1).1.sent_events_awaiting_ack with _ | ⟨a, B⟩
        · rw [hb] at hmap
          exact absurd hmap (by simp)
        · rw [hb] at hmap
          have hhd : ackProj a = gevProj e := by
            simpa using congrArg List.head? hmap
          have hu : a.ackState = .unknown := hheadf a (by rw [hb]; rfl)
          have hnotin := (hpredf a (by
            rw [hb]
            exact List.mem_cons_self a B)).mp hu
          have hty : a.event.eventType = e.eventType :=
            congrArg Prod.snd hhd
          have hein : e.eventType ∈ es.map fun e => e.eventType := by
            refine List.mem_map_of_mem
              (fun e : GestureEventWithLatencyInfo => e.eventType) ?_
            rw [hsplit, hr]
            exact List.mem_append_right done (List.mem_cons_self e rem2)
          exact hnotin (hty ▸ hmemS e.eventType hein)
    rw [hrem, List.append_nil] at hsplit
    rw [List.nil_append] at hrep
    rw [hrep, ← hsplit]
  · intro l
    have h1 := ackCompletedLoop_eq l
    refine ⟨?_, ?_, ?_⟩
    · rw [h1]
      exact (List.takeWhile_append_dropWhile ackKnown l).symm
    · intro a ha
      rw [h1] at ha
      have hp := List.mem_takeWhile_imp ha
      simpa [ackKnown] using hp
    · intro a ha
      rw [h1] at ha
      have hf := head?_dropWhile_false ackKnown l a ha
      simpa [ackKnown] using hf

def sampleForwardSeq : List GestureEventWithLatencyInfo :=
  [⟨.gestureScrollBegin, 20, []⟩, ⟨.gestureScrollUpdate, 21, []⟩,
   ⟨.gestureScrollEnd, 22, []⟩]

def sampleAckSeq : List AckArgs :=
  [⟨.mainThreadRenderer, .consumed, .gestureScrollEnd, []⟩,
   ⟨.mainThreadRenderer, .consumed, .gestureScrollBegin, []⟩,
   ⟨.mainThreadRenderer, .notConsumed, .gestureScrollUpdate, []⟩]

/-- Witness for C1: scroll-begin, scroll-update, scroll-end forwarded in
order and acknowledged in the order end, begin, update. -/
theorem C1_ack_ordering_witness :
    sampleIdleState.sent_events_awaiting_ack = [] ∧
    sampleIdleState.processing_acks = false ∧
    (sampleForwardSeq.map fun e => e.eventType).Nodup ∧
    (sampleAckSeq.map fun c => c.ty).Perm
      (sampleForwardSeq.map fun e => e.eventType) ∧
    (∀ c ∈ sampleAckSeq, c.res ≠ .unknown) ∧
    (reportedAcks (runAcks sampleAckSeq
        (forwardAll sampleForwardSeq sampleIdleState).1).2 =
      sampleForwardSeq.map gevProj ∧
     ∀ l : List GestureEventWithLatencyInfoAndAckState,
       l = (ackCompletedLoop l).2 ++ (ackCompletedLoop l).1 ∧
       (∀ a ∈ (ackCompletedLoop l).2, a.ackState ≠ .unknown) ∧
       (∀ a, (ackCompletedLoop l).1.head? = some a →
         a.ackState = .unknown)) :=
  ⟨rfl, rfl, by decide, by decide, by decide,
   C1_ack_ordering sampleForwardSeq sampleAckSeq sampleIdleState rfl rfl
     (by decide) (by decide) (by decide)⟩

end GestureQueue
